import Mathlib

set_option maxRecDepth 10000

/-!
Shallow embedding of `src/network/MobilenetV3.py`: the MobileNetV3 backbone
augmented with instance-whitening bookkeeping.  Tensors are modelled by their
shapes; the dynamic `(tensor, accumulator)` pairs threaded between blocks are
modelled by an explicit `PyVal` universe, with Python's `len`-based dispatch
and `None` returns made explicit.  Fallible steps (exceptions raised by the
tensor library or by the code itself) return `Except String`.
-/

/-- Python `int(x)`: truncation toward zero on a rational. -/
def pyInt (q : ℚ) : Int := if 0 ≤ q then ⌊q⌋ else ⌈q⌉

/-- `_make_divisible(v, divisor, min_value)` (lines 70-76):
`new_v = max(min_value, int(v + divisor / 2) // divisor * divisor)`,
bumped by one divisor step when it dropped below `0.9 * v`.
Python `/` is true division (exact on `ℚ`), `//` is floor division (`Int.fdiv`). -/
def make_divisible (v : ℚ) (divisor : Int) (min_value : Option Int) : Int :=
  let min_v := min_value.getD divisor
  let new_v := max min_v ((pyInt (v + (divisor : ℚ) / 2)).fdiv divisor * divisor)
  if (new_v : ℚ) < 9 / 10 * v then new_v + divisor else new_v

/-- `InvertedResidualConfig.adjust_channels` (lines 174-176):
`_make_divisible(channels * width_mult, 8)`. -/
def adjust_channels (channels : Nat) (width_mult : ℚ) : Int :=
  make_divisible ((channels : ℚ) * width_mult) 8 Option.none

/-- A tensor, abstracted to its shape (the claims under verification concern
shapes and the whitening-accumulator bookkeeping, not numeric contents). -/
structure Tensor where
  shape : List Nat
deriving DecidableEq, Repr

/-- The whitening accumulator `w_arr`: an ordered list of auxiliary matrices,
each recorded by the channel count of the whitening module that produced it. -/
abbrev WArr := List Nat

/-- A value flowing through the block-level `forward` methods: either a bare
tensor, a two-element list `[tensor, w_arr]`, or Python `None`. -/
inductive PyVal where
  | tensor (t : Tensor)
  | pair (t : Tensor) (acc : WArr)
  | none
deriving DecidableEq, Repr

/-- Python `len` on a block input: a list `[x, w_arr]` has length 2; `len` of
a tensor is the extent of its first dimension (raising on a 0-d tensor);
`len(None)` raises `TypeError` (modelled as `Option.none`). -/
def pyLen : PyVal → Option Nat
  | .tensor t => t.shape.head?
  | .pair _ _ => some 2
  | .none => Option.none

/-- One broadcast dimension: equal extents match, extent 1 stretches. -/
def bcastDim (a b : Nat) : Option Nat :=
  if a = b then some a
  else if a = 1 then some b
  else if b = 1 then some a
  else Option.none

/-- Broadcast two reversed (right-aligned) dimension lists. -/
def bcastRev : List Nat → List Nat → Option (List Nat)
  | [], ys => some ys
  | xs, [] => some xs
  | x :: xs, y :: ys =>
    match bcastDim x y, bcastRev xs ys with
    | some d, some rest => some (d :: rest)
    | _, _ => Option.none

/-- PyTorch broadcasting of two shapes (dimensions aligned from the right). -/
def broadcastShape (s1 s2 : List Nat) : Option (List Nat) :=
  (bcastRev s1.reverse s2.reverse).map List.reverse

/-- An elementwise binary tensor op (`+`, `*`): broadcasts the shapes, raising
a `RuntimeError` when they are not broadcast-compatible. -/
def tensorBinOp (a b : Tensor) : Except String Tensor :=
  match broadcastShape a.shape b.shape with
  | some s => .ok ⟨s⟩
  | Option.none => .error "RuntimeError: shapes are not broadcastable"

/-- Tensor addition `x + conv_x` (residual connection). -/
def tensorAdd (a b : Tensor) : Except String Tensor := tensorBinOp a b

/-- Tensor multiplication `scale * x` (squeeze-excitation gating). -/
def tensorMul (a b : Tensor) : Except String Tensor := tensorBinOp a b

/-- An `nn.Conv2d(inC, outC, kernel, stride, padding, dilation, groups)`. -/
structure Conv2d where
  inC : Nat
  outC : Nat
  kernel : Nat
  stride : Nat
  padding : Nat
  dilation : Nat
  groups : Nat
deriving DecidableEq, Repr

/-- One spatial output extent of a 2-d convolution:
`(h + 2*padding - dilation*(kernel-1) - 1) / stride + 1` (floor), an error
(`Option.none`) when the computed size would be smaller than 1. -/
def convOutDim (h k s p d : Nat) : Option Nat :=
  if ((h : Int) + 2 * (p : Int) - (d : Int) * ((k : Int) - 1) - 1) < 0 then Option.none
  else some (((h : Int) + 2 * (p : Int) - (d : Int) * ((k : Int) - 1) - 1).toNat / s + 1)

/-- Applying a `Conv2d` to a tensor: requires a 4-d input `[n, c, h, w]` whose
channel extent matches `inC` (and the group-divisibility constraints, which
hold for every conv this file constructs); yields `[n, outC, h', w']`. -/
def conv2dApply (c : Conv2d) (t : Tensor) : Except String Tensor :=
  match t.shape with
  | [n, ch, h, w] =>
    if ch = c.inC ∧ c.inC % c.groups = 0 ∧ c.outC % c.groups = 0 then
      match convOutDim h c.kernel c.stride c.padding c.dilation,
            convOutDim w c.kernel c.stride c.padding c.dilation with
      | some h2, some w2 => .ok ⟨[n, c.outC, h2, w2]⟩
      | _, _ => .error "RuntimeError: calculated output size is too small"
    else .error "RuntimeError: conv2d channel mismatch"
  | _ => .error "RuntimeError: conv2d expects a 4-d input"

/-- The normalization layer selected by a whitening mode `iw`:
`nn.Sequential()` (identity), `InstanceWhitening(ch)`, or
`nn.InstanceNorm2d(ch, affine)`. -/
inductive NormLayer where
  | identity
  | instWhitening (ch : Nat)
  | instNorm (ch : Nat) (affine : Bool)
deriving DecidableEq, Repr

/-- Modelled from the spec: the `InstanceWhitening` module (file
`network/instance_whitening.py`, imported at line 9 but not part of the
sources) "normalize[s] per-instance feature statistics and additionally
compute[s] and return[s] a whitening/covariance matrix as a side output"
(spec 4.2, modes 1 and 2).  Shape-preserving on the tensor; the auxiliary
matrix is recorded by the module's channel count. -/
def instanceWhiteningApply (ch : Nat) (t : Tensor) : Tensor × Nat := (t, ch)

/-- Applying `nn.InstanceNorm2d(ch, affine)` to a tensor: shape preserving;
with learnable affine parameters the per-channel weight must match the
channel extent (without `affine`, `num_features` is not checked at runtime). -/
def instNormApply (ch : Nat) (affine : Bool) (t : Tensor) : Except String Tensor :=
  match t.shape with
  | [_, c, _, _] =>
    if affine ∧ c ≠ ch then .error "RuntimeError: instance norm weight size mismatch"
    else .ok t
  | _ => .error "ValueError: InstanceNorm2d expects a 4-d input"

/-- `SqueezeExcitation.__init__` norm selection (lines 34-43): modes 1 and 2
pick `InstanceWhitening(squeeze_channels)`, mode 3 `InstanceNorm2d(squeeze_channels,
affine=False)`, mode 4 `InstanceNorm2d(squeeze_channels, affine=True)`, else
the identity `nn.Sequential()`. -/
def seNormSelect (squeeze_channels : Nat) (iw : Nat) : NormLayer :=
  if iw = 1 then .instWhitening squeeze_channels
  else if iw = 2 then .instWhitening squeeze_channels
  else if iw = 3 then .instNorm squeeze_channels false
  else if iw = 4 then .instNorm squeeze_channels true
  else .identity

/-- `ConvNormActivation.__init__` norm selection (lines 99-108): same branch
structure over `out_planes`, with `affine=True` at mode 4. -/
def cnaNormSelect (out_planes : Nat) (iw : Nat) : NormLayer :=
  if iw = 1 then .instWhitening out_planes
  else if iw = 2 then .instWhitening out_planes
  else if iw = 3 then .instNorm out_planes false
  else if iw = 4 then .instNorm out_planes true
  else .identity

/-- `InvertedResidual.__init__` norm selection (lines 236-245): modes 1 and 2
pick `InstanceWhitening(out_channels)`, mode 3 `InstanceNorm2d(out_channels,
affine=False)`, and mode 4 also `InstanceNorm2d(out_channels, affine=False)`
(line 243 — unlike the other two components). -/
def irNormSelect (out_channels : Nat) (iw : Nat) : NormLayer :=
  if iw = 1 then .instWhitening out_channels
  else if iw = 2 then .instWhitening out_channels
  else if iw = 3 then .instNorm out_channels false
  else if iw = 4 then .instNorm out_channels false
  else .identity

/-- The whitening step shared textually by the three forwards:
`if iw >= 1: if iw in (1,2): x, w = layer(x); w_arr.append(w) else: x = layer(x)`.
Unpacking a non-pair result, or assigning a pair result to a tensor slot, is a
`TypeError` (those arms are unreachable for layers built by the selectors). -/
def whitenStep (iw : Nat) (norm : NormLayer) (x : Tensor) (w_arr : WArr) :
    Except String (Tensor × WArr) :=
  if iw = 1 ∨ iw = 2 then
    match norm with
    | .instWhitening ch =>
      let p := instanceWhiteningApply ch x
      .ok (p.1, w_arr ++ [p.2])
    | _ => .error "TypeError: cannot unpack a tensor"
  else if 1 ≤ iw then
    match norm with
    | .instNorm ch affine =>
      match instNormApply ch affine x with
      | .ok y => .ok (y, w_arr)
      | .error e => .error e
    | .identity => .ok (x, w_arr)
    | .instWhitening _ => .error "TypeError: a pair assigned to a tensor slot"
  else .ok (x, w_arr)

/-- `SqueezeExcitation` (lines 18-43): the two 1x1 convs, the whitening mode,
and the selected normalization layer. -/
structure SqueezeExcitation where
  input_channels : Nat
  squeeze_channels : Nat
  iw : Nat
  normLayer : NormLayer
deriving DecidableEq, Repr

/-- `SqueezeExcitation.__init__`. -/
def mkSqueezeExcitation (input_channels squeeze_channels iw : Nat) : SqueezeExcitation :=
  { input_channels := input_channels
    squeeze_channels := squeeze_channels
    iw := iw
    normLayer := seNormSelect squeeze_channels iw }

/-- `SqueezeExcitation._scale` (lines 45-51): adaptive average pool to
`[n, c, 1, 1]`, `fc1` (`c` must equal `input_channels`), activation, `fc2`
back to `input_channels`, then the instance-norm layer, then the gating
activation.  For modes 1/2 the norm layer returns a pair, which the gating
activation cannot consume (`TypeError`); the tensor path is shape-preserving. -/
def seScale (se : SqueezeExcitation) (t : Tensor) : Except String Tensor :=
  match t.shape with
  | [n, c, _, _] =>
    if c = se.input_channels then
      let s : Tensor := ⟨[n, se.input_channels, 1, 1]⟩
      match se.normLayer with
      | .identity => .ok s
      | .instNorm ch affine => instNormApply ch affine s
      | .instWhitening _ => .error "TypeError: scale activation applied to a pair"
    else .error "RuntimeError: conv2d channel mismatch"
  | _ => .error "RuntimeError: conv2d expects a 4-d input"

/-- `SqueezeExcitation.forward` (lines 53-67): `len`-based dispatch; on a pair
it computes the scale, runs the whitening branch, and returns
`[scale * x, w_arr]`.  A bare tensor of leading extent 2 is unpacked as
`x = x_tuple[0]`, whose 3-d scale computation fails at `fc1`; any other
length prints "error in SE" and returns `None`. -/
def seForward (se : SqueezeExcitation) (v : PyVal) : Except String PyVal :=
  match v with
  | .none => .error "TypeError: object of type NoneType has no len()"
  | .tensor t =>
    match t.shape.head? with
    | Option.none => .error "TypeError: len() of a 0-d tensor"
    | some n =>
      if n = 2 then
        match seScale se ⟨t.shape.tail⟩ with
        | .error e => .error e
        | .ok _ => .error "unreachable: _scale accepted a 3-d tensor"
      else .ok .none
  | .pair x w_arr =>
    match seScale se x with
    | .error e => .error e
    | .ok scale =>
      match whitenStep se.iw se.normLayer scale w_arr with
      | .error e => .error e
      | .ok (scale2, w2) =>
        match tensorMul scale2 x with
        | .error e => .error e
        | .ok y => .ok (.pair y w2)

/-- `ConvNormActivation` (lines 79-123): the conv, whether an activation layer
was interposed, the whitening mode, and the selected normalization layer. -/
structure ConvNormActivation where
  conv : Conv2d
  hasActivation : Bool
  iw : Nat
  normLayer : NormLayer
deriving DecidableEq, Repr

/-- `ConvNormActivation.__init__`: `padding = (kernel_size - 1) // 2` (note:
the dilation factor is not applied to the padding). -/
def mkConvNormActivation (in_planes out_planes kernel_size stride groups dilation : Nat)
    (hasActivation : Bool) (iw : Nat) : ConvNormActivation :=
  { conv := { inC := in_planes, outC := out_planes, kernel := kernel_size,
              stride := stride, padding := (kernel_size - 1) / 2,
              dilation := dilation, groups := groups }
    hasActivation := hasActivation
    iw := iw
    normLayer := cnaNormSelect out_planes iw }

/-- The body of `ConvNormActivation.forward`'s module loop (lines 133-142):
every module but the last (conv, norm layer, optional activation) is applied;
at the last index the whitening branch runs instead.  The norm layer and the
activation are shape-preserving. -/
def cnaPipeline (l : ConvNormActivation) (x : Tensor) (w_arr : WArr) :
    Except String (Tensor × WArr) :=
  match conv2dApply l.conv x with
  | .error e => .error e
  | .ok x1 => whitenStep l.iw l.normLayer x1 w_arr

/-- `ConvNormActivation.forward` (lines 125-144): `len`-based dispatch; a pair
is threaded through the pipeline; a bare tensor of leading extent 2 is
unpacked and the 3-d sub-tensor fed to the conv (rejected); any other length
prints "error in BN forward path" and returns `None`. -/
def cnaForward (l : ConvNormActivation) (v : PyVal) : Except String PyVal :=
  match v with
  | .none => .error "TypeError: object of type NoneType has no len()"
  | .tensor t =>
    match t.shape.head? with
    | Option.none => .error "TypeError: len() of a 0-d tensor"
    | some n =>
      if n = 2 then
        match conv2dApply l.conv ⟨t.shape.tail⟩ with
        | .error e => .error e
        | .ok _ => .error "unreachable: conv2d accepted a 3-d tensor"
      else .ok .none
  | .pair x w_arr =>
    match cnaPipeline l x w_arr with
    | .error e => .error e
    | .ok (y, w2) => .ok (.pair y w2)

/-- `InvertedResidualConfig` (lines 150-176). -/
structure InvertedResidualConfig where
  input_channels : Nat
  kernel : Nat
  expanded_channels : Nat
  out_channels : Nat
  use_se : Bool
  use_hs : Bool
  stride : Int
  dilation : Nat
  iw : Nat
deriving DecidableEq, Repr

/-- `InvertedResidualConfig.__init__`: the three channel counts pass through
`adjust_channels(·, width_mult)`; `use_hs` records `activation == "HS"`.
(`adjust_channels` is at least its divisor 8 here, so `toNat` is exact.) -/
def mkInvertedResidualConfig (input_channels kernel expanded_channels out_channels : Nat)
    (use_se : Bool) (activation : String) (stride : Int) (dilation : Nat)
    (width_mult : ℚ) (iw : Nat) : InvertedResidualConfig :=
  { input_channels := (adjust_channels input_channels width_mult).toNat
    kernel := kernel
    expanded_channels := (adjust_channels expanded_channels width_mult).toNat
    out_channels := (adjust_channels out_channels width_mult).toNat
    use_se := use_se
    use_hs := activation == "HS"
    stride := stride
    dilation := dilation
    iw := iw }

/-- A sub-layer of an `InvertedResidual`'s `self.conv` sequence. -/
inductive IRSub where
  | cna (l : ConvNormActivation)
  | se (s : SqueezeExcitation)
deriving DecidableEq, Repr

/-- `InvertedResidual` (lines 179-248).  (The unused `self.expand_ratio` and
`self._is_cn` attributes are not modelled.) -/
structure InvertedResidual where
  cnf : InvertedResidualConfig
  use_res_connect : Bool
  convLayers : List IRSub
  iw : Nat
  normLayer : NormLayer
  out_channels : Nat
deriving DecidableEq, Repr

/-- `InvertedResidual.__init__` (lines 181-248): raises `ValueError` unless
`1 <= stride <= 2`; builds the optional expand conv, the depthwise conv
(stride forced to 1 when `dilation > 1`), the optional squeeze-excitation
(constructed without an `iw` argument, so with its default mode 0), and the
projection conv; selects the block-level norm layer via `irNormSelect`. -/
def mkInvertedResidual (cnf : InvertedResidualConfig) : Except String InvertedResidual :=
  if 1 ≤ cnf.stride ∧ cnf.stride ≤ 2 then
    let strideN : Nat := if cnf.dilation > 1 then 1 else cnf.stride.toNat
    let expandLayers : List IRSub :=
      if cnf.expanded_channels ≠ cnf.input_channels then
        [.cna (mkConvNormActivation cnf.input_channels cnf.expanded_channels 1 1 1 1
          true cnf.iw)]
      else []
    let dw : IRSub :=
      .cna (mkConvNormActivation cnf.expanded_channels cnf.expanded_channels cnf.kernel
        strideN cnf.expanded_channels cnf.dilation true cnf.iw)
    let seLayers : List IRSub :=
      if cnf.use_se then
        [.se (mkSqueezeExcitation cnf.expanded_channels
          (make_divisible ((cnf.expanded_channels / 4 : Nat) : ℚ) 8 Option.none).toNat 0)]
      else []
    let project : IRSub :=
      .cna (mkConvNormActivation cnf.expanded_channels cnf.out_channels 1 1 1 1
        false cnf.iw)
    .ok { cnf := cnf
          use_res_connect := cnf.stride == 1 && cnf.input_channels == cnf.out_channels
          convLayers := expandLayers ++ [dw] ++ seLayers ++ [project]
          iw := cnf.iw
          normLayer := irNormSelect cnf.out_channels cnf.iw
          out_channels := cnf.out_channels }
  else .error "illegal stride value"

/-- Forward of one `self.conv` sub-layer. -/
def irSubForward : IRSub → PyVal → Except String PyVal
  | .cna l, v => cnaForward l v
  | .se s, v => seForward s v

/-- `self.conv[i](x_tuple)`: out-of-range indexing is an `IndexError`. -/
def irConvAt (b : InvertedResidual) (i : Nat) (v : PyVal) : Except String PyVal :=
  match b.convLayers.get? i with
  | some sub => irSubForward sub v
  | Option.none => .error "IndexError: conv index out of range"

/-- The body of `InvertedResidual.forward` after the `len` dispatch (lines
256-287): the hard-coded sub-layer applications (`conv[0]`, `conv[1]`,
`conv[2]`, and `conv[3]` only when more than 3 sub-layers exist and the
expansion branch is taken), then the residual add when `use_res_connect`,
then the block-level whitening step. -/
def irAfterDispatch (b : InvertedResidual) (x : Tensor) (v : PyVal) :
    Except String PyVal :=
  let vout : Except String PyVal :=
    if b.cnf.expanded_channels ≠ b.cnf.input_channels then
      match irConvAt b 0 v with
      | .error e => .error e
      | .ok v1 =>
        match irConvAt b 1 v1 with
        | .error e => .error e
        | .ok v2 =>
          match irConvAt b 2 v2 with
          | .error e => .error e
          | .ok v3 => if 3 < b.convLayers.length then irConvAt b 3 v3 else .ok v3
    else
      match irConvAt b 0 v with
      | .error e => .error e
      | .ok v1 =>
        match irConvAt b 1 v1 with
        | .error e => .error e
        | .ok v2 => irConvAt b 2 v2
  match vout with
  | .error e => .error e
  | .ok (.pair conv_x w_arr) =>
    let x2 : Except String Tensor :=
      if b.use_res_connect then tensorAdd x conv_x else .ok conv_x
    match x2 with
    | .error e => .error e
    | .ok x3 =>
      match whitenStep b.iw b.normLayer x3 w_arr with
      | .error e => .error e
      | .ok (x4, w2) => .ok (.pair x4 w2)
  | .ok .none => .error "TypeError: NoneType object is not subscriptable"
  | .ok (.tensor _) => .error "unreachable: sub-layer returned a bare tensor"

/-- `InvertedResidual.forward` (lines 250-287): `len`-based dispatch (length 2
unpacks `x = x_tuple[0]`; any other length prints an error and returns
`None`; `len(None)` raises), then the pipeline body. -/
def irForward (b : InvertedResidual) (v : PyVal) : Except String PyVal :=
  match v with
  | .none => .error "TypeError: object of type NoneType has no len()"
  | .tensor t =>
    match t.shape.head? with
    | Option.none => .error "TypeError: len() of a 0-d tensor"
    | some n =>
      if n = 2 then irAfterDispatch b ⟨t.shape.tail⟩ v
      else .ok .none
  | .pair x _ => irAfterDispatch b x v

/-- A layer of `MobileNetV3.features`. -/
inductive NetLayer where
  | cna (l : ConvNormActivation)
  | ir (b : InvertedResidual)
deriving DecidableEq, Repr

/-- Forward of one `features` layer. -/
def netLayerForward : NetLayer → PyVal → Except String PyVal
  | .cna l, v => cnaForward l v
  | .ir b, v => irForward b v

/-- The fixed lookup `iw_layer = [0, 2, 7, 11, 12]` (line 332). -/
def iw_layer : List Nat := [0, 2, 7, 11, 12]

/-- The whitening-mode assignment loop of `MobileNetV3.__init__` (lines
331-342): `feature_count` is incremented before each config; when it occurs
in `iw_layer` the config's `iw` field is overwritten with
`iw[iw_layer.index(feature_count) + 2]` (an `IndexError` when the selector
list is too short), otherwise it is overwritten with 0. -/
def assignIwsFrom (sel : List Nat) (fc : Nat) :
    List InvertedResidualConfig → Except String (List InvertedResidualConfig)
  | [] => .ok []
  | cnf :: rest =>
    let fc1 := fc + 1
    let step : Except String InvertedResidualConfig :=
      if fc1 ∈ iw_layer then
        match sel.get? (iw_layer.indexOf fc1 + 2) with
        | some m => .ok { cnf with iw := m }
        | Option.none => .error "IndexError: list index out of range"
      else .ok { cnf with iw := 0 }
    match step, assignIwsFrom sel fc1 rest with
    | .ok c, .ok rest2 => .ok (c :: rest2)
    | .error e, _ => .error e
    | .ok _, .error e => .error e

/-- The whitening mode the assignment loop gives the block at 1-indexed
position `pos` (closed form of `assignIwsFrom`, given that the selector
lookup succeeded). -/
def assignedIwVal (sel : List Nat) (pos : Nat) : Nat :=
  if pos ∈ iw_layer then (sel.get? (iw_layer.indexOf pos + 2)).getD 0 else 0

/-- The assembled `MobileNetV3` (lines 290-389): the `features` sequence and
the classifier's dimensions. -/
structure MobileNetV3 where
  features : List NetLayer
  lastconv_output_channels : Nat
  last_channel : Nat
  num_classes : Nat
deriving DecidableEq, Repr

/-- `MobileNetV3.__init__` (lines 291-376): rejects an empty config list;
builds the stem conv (3 → first input channels, kernel 3, stride 2, whitening
off), one `InvertedResidual` per config after the whitening-mode assignment
loop, and the head conv (kernel 1, 6x the last out channels, whitening off).
The classifier is `Linear(lastconv_output_channels, last_channel)` then
`Linear(last_channel, num_classes)`. -/
def mkMobileNetV3 (setting : List InvertedResidualConfig) (last_channel : Nat)
    (num_classes : Nat) (iw : List Nat) : Except String MobileNetV3 :=
  match setting with
  | [] => .error "The inverted_residual_setting should not be empty"
  | c0 :: _ =>
    match assignIwsFrom iw 0 setting with
    | .error e => .error e
    | .ok assigned =>
      match assigned.mapM (fun cnf => (mkInvertedResidual cnf).map NetLayer.ir) with
      | .error e => .error e
      | .ok blocks =>
        let lastconv_input_channels := (assigned.getLast?.getD c0).out_channels
        let lastconv_output_channels := 6 * lastconv_input_channels
        let stem := NetLayer.cna (mkConvNormActivation 3 c0.input_channels 3 2 1 1 true 0)
        let headConv := NetLayer.cna (mkConvNormActivation lastconv_input_channels
          lastconv_output_channels 1 1 1 1 true 0)
        .ok { features := [stem] ++ blocks ++ [headConv]
              lastconv_output_channels := lastconv_output_channels
              last_channel := last_channel
              num_classes := num_classes }

/-- `nn.AdaptiveAvgPool2d(1)`: `[n, c, h, w] → [n, c, 1, 1]`. -/
def avgpoolApply (t : Tensor) : Except String Tensor :=
  match t.shape with
  | [n, c, _, _] => .ok ⟨[n, c, 1, 1]⟩
  | _ => .error "RuntimeError: adaptive pool expects a 4-d input"

/-- `torch.flatten(x, 1)`: collapse all dimensions after the first. -/
def flatten1 (t : Tensor) : Except String Tensor :=
  match t.shape with
  | n :: rest => .ok ⟨[n, rest.prod]⟩
  | [] => .error "RuntimeError: flatten on a 0-d tensor"

/-- `nn.Linear(inF, outF)` on a 2-d input `[n, inF] → [n, outF]`. -/
def linearApply (inF outF : Nat) (t : Tensor) : Except String Tensor :=
  match t.shape with
  | [n, f] =>
    if f = inF then .ok ⟨[n, outF]⟩
    else .error "RuntimeError: mat1 and mat2 shapes cannot be multiplied"
  | _ => .error "RuntimeError: linear expects a 2-d input"

/-- `self.features(x)`: the `nn.Sequential` threads each layer's return value
(whatever it is) into the next layer's `forward`. -/
def runFeatures (layers : List NetLayer) (v : PyVal) : Except String PyVal :=
  layers.foldlM (fun acc l => netLayerForward l acc) v

/-- `MobileNetV3._forward_impl` / `forward` (lines 378-389): the input tensor
is passed to `features` as a bare tensor (not as a `(tensor, accumulator)`
pair), then average-pooled, flattened, and classified; the Hardswish and
Dropout stages are shape-preserving. -/
def netForward (m : MobileNetV3) (x : Tensor) : Except String Tensor :=
  match runFeatures m.features (.tensor x) with
  | .error e => .error e
  | .ok (.tensor t) =>
    match avgpoolApply t with
    | .error e => .error e
    | .ok t1 =>
      match flatten1 t1 with
      | .error e => .error e
      | .ok t2 =>
        match linearApply m.lastconv_output_channels m.last_channel t2 with
        | .error e => .error e
        | .ok t3 => linearApply m.last_channel m.num_classes t3
  | .ok (.pair _ _) => .error "TypeError: adaptive pool applied to a list"
  | .ok .none => .error "TypeError: adaptive pool applied to None"

/-- `_mobilenet_v3_conf("mobilenet_v3_small", ...)` (lines 392-419): the
eleven block configs. -/
def mobilenet_v3_small_setting (width_mult : ℚ) (iw : Nat)
    (reduced_tail dilated : Bool) : List InvertedResidualConfig :=
  let reduce_divider : Nat := if reduced_tail then 2 else 1
  let dilation : Nat := if dilated then 2 else 1
  let bneck := fun (i k e o : Nat) (se : Bool) (act : String) (s : Int) (d : Nat) =>
    mkInvertedResidualConfig i k e o se act s d width_mult iw
  [bneck 16 3 16 16 true "RE" 2 1,
   bneck 16 3 72 24 false "RE" 2 1,
   bneck 24 3 88 24 false "RE" 1 1,
   bneck 24 5 96 40 true "HS" 2 1,
   bneck 40 5 240 40 true "HS" 1 1,
   bneck 40 5 240 40 true "HS" 1 1,
   bneck 40 5 120 48 true "HS" 1 1,
   bneck 48 5 144 48 true "HS" 1 1,
   bneck 48 5 288 (96 / reduce_divider) true "HS" 2 dilation,
   bneck (96 / reduce_divider) 5 (576 / reduce_divider) (96 / reduce_divider) true "HS" 1 dilation,
   bneck (96 / reduce_divider) 5 (576 / reduce_divider) (96 / reduce_divider) true "HS" 1 dilation]

/-- `last_channel = adjust_channels(1024 // reduce_divider)` (line 415). -/
def mobilenet_v3_small_last_channel (width_mult : ℚ) (reduced_tail : Bool) : Nat :=
  (adjust_channels (1024 / (if reduced_tail then 2 else 1)) width_mult).toNat

/-- The default small architecture: `mobilenet_v3()` with `width_mult = 1.0`,
`reduced_tail = False`, `dilated = False`. -/
def smallSetting : List InvertedResidualConfig :=
  mobilenet_v3_small_setting 1 0 false false

/-- The default small architecture's `last_channel`. -/
def smallLastChannel : Nat := mobilenet_v3_small_last_channel 1 false

/-- Whether an `Except` value is a success. -/
def exOk {ε α : Type} : Except ε α → Bool
  | .ok _ => true
  | .error _ => false

/-- The accumulator length of a features run that ended in a pair. -/
def accLenOf (v : Except String PyVal) : Option Nat :=
  match v with
  | .ok (.pair _ acc) => some acc.length
  | _ => Option.none

/-- Run the default small architecture's `features` on a well-formed
`[tensor, w_arr]` pair (spatial size 8x8, empty accumulator), under a given
7-element whitening-mode selector. -/
def runSmallFeatures (sel : List Nat) : Except String PyVal :=
  match mkMobileNetV3 smallSetting smallLastChannel 1000 sel with
  | .error e => .error e
  | .ok m => runFeatures m.features (.pair ⟨[1, 3, 8, 8]⟩ [])

/-- Accumulator entries contributed by one whitening-eligible block of the
small architecture (each eligible block there has an expansion stage): modes
1 and 2 append from the expand, depthwise, and project convs plus the
block-level whitening; other modes append nothing. -/
def smallBlockContribution (m : Nat) : Nat := if m = 1 ∨ m = 2 then 4 else 0

/-- The last small-architecture config under `dilated=True` (line 413):
residual-eligible (stride 1, 96 → 96) with dilation 2. -/
def dilatedCfg : InvertedResidualConfig :=
  mkInvertedResidualConfig 96 5 576 96 true "HS" 1 2 1 0

/-- A residual-eligible config with neither an expansion stage nor a
squeeze-excitation stage (its `self.conv` has only 2 sub-layers). -/
def plainCfg : InvertedResidualConfig :=
  mkInvertedResidualConfig 16 3 16 16 false "RE" 1 1 1 0

/-- The small architecture's fifth config (line 407): residual-eligible,
with expansion and squeeze-excitation, dilation 1. -/
def resCfg : InvertedResidualConfig :=
  mkInvertedResidualConfig 40 5 240 40 true "HS" 1 1 1 0

/-- The small architecture's second config (line 404). -/
def pos1Cfg : InvertedResidualConfig :=
  mkInvertedResidualConfig 16 3 72 24 false "RE" 2 1 1 0

/-- A config constructed with whitening mode 4. -/
def iw4Cfg : InvertedResidualConfig :=
  mkInvertedResidualConfig 16 3 16 16 true "RE" 2 1 1 4

/-- A placeholder block (used only as the default of an `Option` extraction). -/
def emptyIR : InvertedResidual :=
  { cnf := plainCfg, use_res_connect := false, convLayers := [],
    iw := 0, normLayer := NormLayer.identity, out_channels := 0 }

/-- The block built from `resCfg`. -/
def resBlock : InvertedResidual := (mkInvertedResidual resCfg).toOption.getD emptyIR

/-- Thirteen copies of a config (enough to reach position 13 of the claim). -/
def thirteenCfgs : List InvertedResidualConfig := List.replicate 13 pos1Cfg

/-- The result of the whitening-mode assignment loop on `thirteenCfgs` under
a selector with seven distinct values. -/
def c2res : List InvertedResidualConfig :=
  (assignIwsFrom [0, 1, 2, 3, 4, 5, 6] 0 thirteenCfgs).toOption.getD []

/-- The result of the whitening-mode assignment loop on the single config
`iw4Cfg` under the default all-zero selector. -/
def c9res : List InvertedResidualConfig :=
  (assignIwsFrom [0, 0, 0, 0, 0, 0, 0] 0 [iw4Cfg]).toOption.getD []

/-! ## Helper lemmas -/

/-- Broadcasting a dimension against itself. -/
theorem helper_bcastDim_self (a : Nat) : bcastDim a a = some a := by
  simp [bcastDim]

/-- Broadcasting a unit dimension against any dimension. -/
theorem helper_bcastDim_one_left (b : Nat) : bcastDim 1 b = some b := by
  unfold bcastDim
  by_cases h : 1 = b
  · rw [if_pos h, h]
  · rw [if_neg h, if_pos rfl]

/-- Broadcasting a reversed dimension list against itself. -/
theorem helper_bcastRev_self (l : List Nat) : bcastRev l l = some l := by
  induction l with
  | nil => rfl
  | cons x xs ih => simp [bcastRev, helper_bcastDim_self, ih]

/-- Broadcasting a shape against itself. -/
theorem helper_broadcast_self (s : List Nat) : broadcastShape s s = some s := by
  simp [broadcastShape, helper_bcastRev_self]

/-- The squeeze-excitation gating broadcast: `[n, c, 1, 1] * [n, c, h, w]`. -/
theorem helper_broadcast_pool (n c h w : Nat) :
    broadcastShape [n, c, 1, 1] [n, c, h, w] = some [n, c, h, w] := by
  simp [broadcastShape, List.reverse_cons, bcastRev, helper_bcastDim_self,
    helper_bcastDim_one_left]

/-- Whitening mode 0 leaves both the tensor and the accumulator unchanged. -/
theorem helper_whitenStep_zero (norm : NormLayer) (x : Tensor) (acc : WArr) :
    whitenStep 0 norm x acc = .ok (x, acc) := rfl

/-- A stride-1, dilation-1 convolution with odd kernel and the code's
`(kernel - 1) // 2` padding preserves a positive spatial extent. -/
theorem helper_convOutDim_pres (h k : Nat) (hk : k % 2 = 1) (hh : 1 ≤ h) :
    convOutDim h k 1 ((k - 1) / 2) 1 = some h := by
  unfold convOutDim
  rw [if_neg (by omega)]
  congr 1
  omega

/-- The whitening step of a `ConvNormActivation` on a tensor whose channel
extent matches the layer's `out_planes`: shape preserving, appending one
matrix exactly for modes 1 and 2. -/
theorem helper_whitenStep_cna (outC iw n h w : Nat) (acc : WArr) :
    whitenStep iw (cnaNormSelect outC iw) ⟨[n, outC, h, w]⟩ acc =
      .ok (⟨[n, outC, h, w]⟩, acc ++ (if iw = 1 ∨ iw = 2 then [outC] else [])) := by
  rcases iw with _ | _ | _ | _ | _ | m
  · simp [whitenStep, cnaNormSelect, instNormApply]
  · simp [whitenStep, cnaNormSelect, instNormApply, instanceWhiteningApply]
  · simp [whitenStep, cnaNormSelect, instNormApply, instanceWhiteningApply]
  · simp [whitenStep, cnaNormSelect, instNormApply]
  · simp [whitenStep, cnaNormSelect, instNormApply]
  · have h1 : ¬(m + 5 = 1 ∨ m + 5 = 2) := by omega
    have h2 : 1 ≤ m + 5 := by omega
    have h3 : cnaNormSelect outC (m + 5) = NormLayer.identity := by
      unfold cnaNormSelect
      rw [if_neg (by omega), if_neg (by omega), if_neg (by omega), if_neg (by omega)]
    rw [h3]
    unfold whitenStep
    rw [if_neg h1, if_pos h2, if_neg h1]
    simp

/-- The block-level whitening step of an `InvertedResidual` on a tensor whose
channel extent matches the config's `out_channels`: shape preserving,
appending one matrix exactly for modes 1 and 2. -/
theorem helper_whitenStep_ir (outC iw n h w : Nat) (acc : WArr) :
    whitenStep iw (irNormSelect outC iw) ⟨[n, outC, h, w]⟩ acc =
      .ok (⟨[n, outC, h, w]⟩, acc ++ (if iw = 1 ∨ iw = 2 then [outC] else [])) := by
  rcases iw with _ | _ | _ | _ | _ | m
  · simp [whitenStep, irNormSelect, instNormApply]
  · simp [whitenStep, irNormSelect, instNormApply, instanceWhiteningApply]
  · simp [whitenStep, irNormSelect, instNormApply, instanceWhiteningApply]
  · simp [whitenStep, irNormSelect, instNormApply]
  · simp [whitenStep, irNormSelect, instNormApply]
  · have h1 : ¬(m + 5 = 1 ∨ m + 5 = 2) := by omega
    have h2 : 1 ≤ m + 5 := by omega
    have h3 : irNormSelect outC (m + 5) = NormLayer.identity := by
      unfold irNormSelect
      rw [if_neg (by omega), if_neg (by omega), if_neg (by omega), if_neg (by omega)]
    rw [h3]
    unfold whitenStep
    rw [if_neg h1, if_pos h2, if_neg h1]
    simp

/-- A stride-1, dilation-1, odd-kernel `ConvNormActivation` on a well-formed
pair: shape `[n, a, h, w] → [n, b, h, w]` with the mode-dependent append. -/
theorem helper_cna_pres (a b g k : Nat) (act : Bool) (iw n h w : Nat)
    (hk : k % 2 = 1) (hg1 : a % g = 0) (hg2 : b % g = 0) (hh : 1 ≤ h) (hw : 1 ≤ w) :
    ∀ acc : WArr,
      cnaForward (mkConvNormActivation a b k 1 g 1 act iw) (.pair ⟨[n, a, h, w]⟩ acc) =
        .ok (.pair ⟨[n, b, h, w]⟩ (acc ++ (if iw = 1 ∨ iw = 2 then [b] else []))) := by
  intro acc
  simp only [cnaForward, cnaPipeline, mkConvNormActivation, conv2dApply,
    helper_convOutDim_pres h k hk hh, helper_convOutDim_pres w k hk hw,
    hg1, hg2, and_self, and_true, if_true, eq_self_iff_true, true_and]
  rw [helper_whitenStep_cna]

/-- A whitening-mode-0 `SqueezeExcitation` on a well-formed pair whose channel
extent matches: gating preserves the shape, the accumulator is untouched. -/
theorem helper_se_pres (cIn sq n h w : Nat) (acc : WArr) :
    seForward (mkSqueezeExcitation cIn sq 0) (.pair ⟨[n, cIn, h, w]⟩ acc) =
      .ok (.pair ⟨[n, cIn, h, w]⟩ acc) := by
  simp [seForward, mkSqueezeExcitation, seScale, seNormSelect, helper_whitenStep_zero,
    tensorMul, tensorBinOp, helper_broadcast_pool, whitenStep]

/-- Adding a tensor to one of the same shape succeeds and keeps the shape. -/
theorem helper_tensorAdd_self (t : Tensor) : tensorAdd t t = .ok t := by
  simp [tensorAdd, tensorBinOp, helper_broadcast_self]

/-! ## Claim theorems -/

/-- Claim C1: the claim says the top-level forward maps a `(1,3,224,224)`
zero tensor to a `(1, num_classes)` logits tensor.  On the code, constructing
the default small model succeeds, but its `_forward_impl` hands the bare
input tensor to `features`, whose stem `ConvNormActivation.forward` sees
`len(x) == 1`, prints an error and returns `None`; the first inverted
residual block then raises `TypeError` on `len(None)`.  The forward raises
instead of returning logits. -/
theorem C1_top_forward_raises :
    (mkMobileNetV3 smallSetting smallLastChannel 1000 [0, 0, 0, 0, 0, 0, 0]).toOption.isSome
      = true ∧
    (mkMobileNetV3 smallSetting smallLastChannel 1000 [0, 0, 0, 0, 0, 0, 0]).toOption.map
      (fun m => netForward m ⟨[1, 3, 224, 224]⟩) =
      some (.error "TypeError: object of type NoneType has no len()") :=
  ⟨rfl, rfl⟩

/-- Claim C3, counterexample: over the small architecture with exactly one
whitening-eligible block in mode 1, a features pass over a well-formed
`(tensor, accumulator)` pair leaves 4 accumulator entries (one from each of
the block's three `ConvNormActivation` stages and one from the block-level
whitening), not 1 as the claim (one entry per mode-1/2 block) states. -/
theorem C3_acc_length_counterexample :
    accLenOf (runSmallFeatures [0, 0, 0, 1, 0, 0, 0]) = some 4 ∧ (4 : Nat) ≠ 1 :=
  ⟨by with_unfolding_all rfl, by decide⟩

/-- Claim C3, amended: after a features pass over the small architecture on a
well-formed pair, the accumulator length is the sum over the three reachable
whitening-eligible positions (2, 7, 11) of 4 entries for modes 1 and 2 and 0
entries for modes 0, 3, 4. -/
theorem C3_acc_length_formula :
    ∀ (a b c : Fin 5),
      accLenOf (runSmallFeatures [0, 0, 0, a.val, b.val, c.val, 0]) =
        some (smallBlockContribution a.val + smallBlockContribution b.val +
              smallBlockContribution c.val) := by
  with_unfolding_all decide

/-- Claim C6: `InvertedResidual.__init__` raises exactly when the config's
stride is neither 1 nor 2 (`if not (1 <= cnf.stride <= 2): raise ValueError`);
no other construction step raises. -/
theorem C6_stride_validation (cnf : InvertedResidualConfig) :
    exOk (mkInvertedResidual cnf) = true ↔ (cnf.stride = 1 ∨ cnf.stride = 2) := by
  by_cases h : 1 ≤ cnf.stride ∧ cnf.stride ≤ 2
  · unfold mkInvertedResidual
    rw [if_pos h]
    simp [exOk]
    omega
  · unfold mkInvertedResidual
    rw [if_neg h]
    simp [exOk]
    omega

/-- Claim C7: the claim says mode 4 selects instance normalization with
learnable affine parameters in all three components.  Squeeze-Excitation and
Conv-Norm-Activation do (`affine=True`), but `InvertedResidual.__init__`
(line 243) builds `nn.InstanceNorm2d(out_channels, affine=False)` for mode 4,
identical to mode 3. -/
theorem C7_mode4_affine_divergence :
    seNormSelect 24 4 = NormLayer.instNorm 24 true ∧
    cnaNormSelect 24 4 = NormLayer.instNorm 24 true ∧
    irNormSelect 24 4 = NormLayer.instNorm 24 false ∧
    NormLayer.instNorm 24 false ≠ NormLayer.instNorm 24 true :=
  ⟨rfl, rfl, rfl, by decide⟩

/-- Claim C8, counterexample: the claim says every input not shaped as a
2-tuple makes the block forwards log and return nothing rather than raise.
A `None` input (exactly what the stem hands the first block in the broken
top-level forward) is not a 2-tuple, yet `len(None)` raises `TypeError`
before the guard can return. -/
theorem C8_none_input_raises :
    seForward (mkSqueezeExcitation 16 8 0) PyVal.none =
      .error "TypeError: object of type NoneType has no len()" ∧
    irForward resBlock PyVal.none =
      .error "TypeError: object of type NoneType has no len()" ∧
    seForward (mkSqueezeExcitation 16 8 0) PyVal.none ≠ .ok PyVal.none :=
  ⟨rfl, rfl, fun h => Except.noConfusion h⟩

/-- Claim C8, amended: for every input that supports `len` and whose length
is not 2, each of the three block forwards prints an error and returns
`None` without raising; an input with no length (such as `None`) raises
`TypeError` instead, and a non-tuple of length 2 is not detected. -/
theorem C8_len_dispatch_returns_none
    (se : SqueezeExcitation) (l : ConvNormActivation) (b : InvertedResidual)
    (v : PyVal) (n : Nat) (hlen : pyLen v = some n) (hn : n ≠ 2) :
    seForward se v = .ok PyVal.none ∧ cnaForward l v = .ok PyVal.none ∧
      irForward b v = .ok PyVal.none := by
  cases v with
  | none => exact Option.noConfusion hlen
  | pair x acc => exact absurd (Option.some.inj hlen).symm hn
  | tensor t =>
    have ht : t.shape.head? = some n := hlen
    refine ⟨?_, ?_, ?_⟩ <;> simp [seForward, cnaForward, irForward, ht, hn]

/-- Claim C8, witness: a 3-element input is logged and the calls return
`None` in all three components. -/
theorem C8_len_dispatch_returns_none_witness :
    seForward (mkSqueezeExcitation 16 8 0) (.tensor ⟨[3, 16, 4, 4]⟩) = .ok PyVal.none ∧
    cnaForward (mkConvNormActivation 3 16 3 2 1 1 true 0) (.tensor ⟨[3, 16, 4, 4]⟩)
      = .ok PyVal.none ∧
    irForward resBlock (.tensor ⟨[3, 16, 4, 4]⟩) = .ok PyVal.none :=
  C8_len_dispatch_returns_none (mkSqueezeExcitation 16 8 0)
    (mkConvNormActivation 3 16 3 2 1 1 true 0) resBlock
    (.tensor ⟨[3, 16, 4, 4]⟩) 3 rfl (by decide)

/-- Claim C10: every squeeze-excitation submodule constructed inside an
`InvertedResidual` is created with whitening mode 0 (the `se_layer` call at
line 228 passes no `iw`), hence an identity norm layer; and a mode-0
squeeze-excitation forward returns its accumulator argument unchanged
whenever it returns at all. -/
theorem C10_se_whitening_off :
    (∀ (cnf : InvertedResidualConfig) (b : InvertedResidual),
        mkInvertedResidual cnf = .ok b →
        ∀ s : SqueezeExcitation, IRSub.se s ∈ b.convLayers →
          s.iw = 0 ∧ s.normLayer = NormLayer.identity) ∧
    (∀ s : SqueezeExcitation, s.iw = 0 →
        ∀ (x : Tensor) (acc : WArr) (r : PyVal),
          seForward s (.pair x acc) = .ok r → ∃ y, r = .pair y acc) := by
  constructor
  · intro cnf b hb s hs
    unfold mkInvertedResidual at hb
    split at hb
    · injection hb with hb2
      subst hb2
      split_ifs at hs <;> simp at hs <;> (subst hs; exact ⟨rfl, rfl⟩)
    · exact Except.noConfusion hb
  · intro s h0 x acc r hr
    cases hsc : seScale s x with
    | error e =>
      simp only [seForward, hsc] at hr
      exact Except.noConfusion hr
    | ok scale =>
      simp only [seForward, hsc, h0, helper_whitenStep_zero] at hr
      cases hmul : tensorMul scale x with
      | error e =>
        simp only [hmul] at hr
        exact Except.noConfusion hr
      | ok y =>
        simp only [hmul] at hr
        injection hr with h2
        exact ⟨y, h2.symm⟩

/-- Claim C10, witness: the squeeze-excitation inside the block built from
`resCfg` has mode 0 and an identity norm layer, and a mode-0
squeeze-excitation forward preserves a concrete accumulator. -/
theorem C10_se_whitening_off_witness :
    ((mkSqueezeExcitation 240 64 0).iw = 0 ∧
      (mkSqueezeExcitation 240 64 0).normLayer = NormLayer.identity) ∧
    ∃ y, (PyVal.pair ⟨[1, 16, 4, 4]⟩ [5]) = PyVal.pair y [5] :=
  ⟨C10_se_whitening_off.1 resCfg resBlock (by with_unfolding_all rfl)
      (mkSqueezeExcitation 240 64 0) (by with_unfolding_all decide),
   C10_se_whitening_off.2 (mkSqueezeExcitation 16 8 0) rfl ⟨[1, 16, 4, 4]⟩ [5]
      (PyVal.pair ⟨[1, 16, 4, 4]⟩ [5]) (by with_unfolding_all rfl)⟩

/-- Claim C4, counterexample: with raw value 0, divisor 8 and minimum 5,
`_make_divisible` returns `max(5, 0) = 5`, which is not a multiple of the
divisor — the multiple-of-divisor part of the claim fails when the supplied
minimum is not itself a multiple. -/
theorem C4_min_value_counterexample :
    make_divisible 0 8 (some 5) = 5 ∧ ¬ ((8 : Int) ∣ 5) :=
  ⟨by with_unfolding_all rfl, by omega⟩

/-- Claim C4, amended: for `v ≥ 0` and a positive divisor, `_make_divisible`
returns at least the minimum (the divisor when none is given), at least
`0.9 * v`, and a multiple of the divisor whenever the minimum is itself a
multiple of the divisor (in particular always when no minimum is given). -/
theorem C4_make_divisible_bounds (v : ℚ) (d : Int) (mv : Option Int)
    (hv : 0 ≤ v) (hd : 0 < d) :
    mv.getD d ≤ make_divisible v d mv ∧
    (9 : ℚ) / 10 * v ≤ (make_divisible v d mv : ℚ) ∧
    (d ∣ mv.getD d → d ∣ make_divisible v d mv) := by
  have hdq : (0 : ℚ) < (d : ℚ) := by exact_mod_cast hd
  have hpos : (0 : ℚ) ≤ v + (d : ℚ) / 2 := by linarith
  have ha : pyInt (v + (d : ℚ) / 2) = ⌊v + (d : ℚ) / 2⌋ := if_pos hpos
  set a := ⌊v + (d : ℚ) / 2⌋ with hadef
  have hfd : a.fdiv d = a / d := Int.fdiv_eq_ediv a (le_of_lt hd)
  have hmod1 : 0 ≤ a % d := Int.emod_nonneg a (ne_of_gt hd)
  have hmod2 : a % d < d := Int.emod_lt_of_pos a hd
  have hfl : v + (d : ℚ) / 2 < (a : ℚ) + 1 := by
    rw [hadef]
    exact Int.lt_floor_add_one _
  have hr0 : a - d + 1 ≤ a / d * d := by
    have h1 : a / d * d = a - a % d := by
      have h2 := Int.ediv_add_emod a d
      linarith [mul_comm (a / d) d]
    rw [h1]
    omega
  have hunf : make_divisible v d mv =
      (if ((max (mv.getD d) ((pyInt (v + (d : ℚ) / 2)).fdiv d * d) : Int) : ℚ) < 9 / 10 * v
       then max (mv.getD d) ((pyInt (v + (d : ℚ) / 2)).fdiv d * d) + d
       else max (mv.getD d) ((pyInt (v + (d : ℚ) / 2)).fdiv d * d)) := rfl
  rw [hunf, ha, hfd]
  set N := max (mv.getD d) (a / d * d) with hN
  have hNm : mv.getD d ≤ N := le_max_left _ _
  have hNr : a / d * d ≤ N := le_max_right _ _
  have hNq : v - (d : ℚ) / 2 < (N : ℚ) := by
    have h5 : ((a - d + 1 : Int) : ℚ) ≤ ((a / d * d : Int) : ℚ) := by exact_mod_cast hr0
    have h3 : ((a / d * d : Int) : ℚ) ≤ (N : ℚ) := by exact_mod_cast hNr
    push_cast at h5 h3
    linarith
  have hdvd : d ∣ mv.getD d → d ∣ N := by
    intro hm
    rcases max_choice (mv.getD d) (a / d * d) with h | h <;> rw [hN, h]
    · exact hm
    · exact dvd_mul_left d (a / d)
  split_ifs with hlt
  · refine ⟨?_, ?_, ?_⟩
    · omega
    · push_cast
      linarith
    · intro hm
      exact dvd_add (hdvd hm) dvd_rfl
  · refine ⟨hNm, ?_, hdvd⟩
    exact le_of_not_lt hlt

/-- Claim C4, witness: at `v = 10`, divisor 8, no minimum, the amended bounds
hold (the result is 16: rounding to 8 lost more than 10%, so one divisor step
is added). -/
theorem C4_make_divisible_bounds_witness :
    ((Option.none : Option Int).getD 8 ≤ make_divisible 10 8 Option.none) ∧
    (9 : ℚ) / 10 * 10 ≤ (make_divisible 10 8 Option.none : ℚ) ∧
    ((8 : Int) ∣ (Option.none : Option Int).getD 8 →
      (8 : Int) ∣ make_divisible 10 8 Option.none) :=
  C4_make_divisible_bounds 10 8 Option.none (by norm_num) (by norm_num)

/-- The whitening-mode assignment loop, elementwise: the `iw` field of the
config at 0-indexed position `i` (1-indexed `fc + i + 1`) is overwritten with
`assignedIwVal`; every other field is kept. -/
theorem helper_assign_get (sel : List Nat) (cfgs : List InvertedResidualConfig) :
    ∀ (fc : Nat) (res : List InvertedResidualConfig),
      assignIwsFrom sel fc cfgs = .ok res →
      ∀ (i : Nat) (c : InvertedResidualConfig), cfgs.get? i = some c →
        res.get? i = some { c with iw := assignedIwVal sel (fc + i + 1) } := by
  induction cfgs with
  | nil =>
    intro fc res h i c hc
    simp at hc
  | cons cnf rest ih =>
    intro fc res h i c hc
    by_cases hmem : fc + 1 ∈ iw_layer
    · cases hsel : sel.get? (iw_layer.indexOf (fc + 1) + 2) with
      | none =>
        simp only [assignIwsFrom, hmem, if_true, hsel] at h
        exact Except.noConfusion h
      | some m =>
        cases hrec : assignIwsFrom sel (fc + 1) rest with
        | error e =>
          simp only [assignIwsFrom, hmem, if_true, hsel, hrec] at h
          exact Except.noConfusion h
        | ok rest2 =>
          simp only [assignIwsFrom, hmem, if_true, hsel, hrec] at h
          injection h with h2
          subst h2
          cases i with
          | zero =>
            simp only [List.get?] at hc
            injection hc with hc2
            subst hc2
            have hsel2 : sel[List.indexOf (fc + 1) iw_layer + 2]? = some m := by
              rw [← List.get?_eq_getElem?]
              exact hsel
            simp [assignedIwVal, hmem, hsel, hsel2]
          | succ j =>
            simp only [List.get?] at hc ⊢
            have hj := ih (fc + 1) rest2 hrec j c hc
            have harith : fc + 1 + j + 1 = fc + (j + 1) + 1 := by omega
            rw [harith] at hj
            exact hj
    · cases hrec : assignIwsFrom sel (fc + 1) rest with
      | error e =>
        simp only [assignIwsFrom, hmem, if_false, hrec] at h
        exact Except.noConfusion h
      | ok rest2 =>
        simp only [assignIwsFrom, hmem, if_false, hrec] at h
        injection h with h2
        subst h2
        cases i with
        | zero =>
          simp only [List.get?] at hc
          injection hc with hc2
          subst hc2
          simp [assignedIwVal, hmem]
        | succ j =>
          simp only [List.get?] at hc ⊢
          have hj := ih (fc + 1) rest2 hrec j c hc
          have harith : fc + 1 + j + 1 = fc + (j + 1) + 1 := by omega
          rw [harith] at hj
          exact hj

/-- Claim C2, counterexample: the claim says the block at 1-indexed position
1 takes its whitening mode from the selector (entry `iw[2]`).  On the code,
`feature_count in iw_layer` tests membership among the values
`[0, 2, 7, 11, 12]`, so position 1 is not eligible: with selector
`[0,0,3,0,0,0,0]` the first block's mode is forced to 0, not 3. -/
theorem C2_position_one_not_from_selector :
    (assignIwsFrom [0, 0, 3, 0, 0, 0, 0] 0 [pos1Cfg]).map
        (List.map InvertedResidualConfig.iw) = .ok [0] ∧
    (0 : Nat) ≠ 3 :=
  ⟨by with_unfolding_all rfl, by decide⟩

/-- Claim C2, amended: a block receives its whitening mode from the external
selector exactly at 1-indexed positions 2, 7, 11 and 12 (the reachable values
of the lookup `[0, 2, 7, 11, 12]`; value 0 can never equal a 1-based count),
via selector entries 3, 4, 5 and 6 respectively; every other position is
forced to mode 0. -/
theorem C2_selector_value_positions
    (sel : List Nat) (cfgs res : List InvertedResidualConfig)
    (h : assignIwsFrom sel 0 cfgs = .ok res)
    (i : Nat) (c : InvertedResidualConfig) (hc : cfgs.get? i = some c) :
    (res.get? i).map InvertedResidualConfig.iw =
      some (if i + 1 = 2 then (sel.get? 3).getD 0
            else if i + 1 = 7 then (sel.get? 4).getD 0
            else if i + 1 = 11 then (sel.get? 5).getD 0
            else if i + 1 = 12 then (sel.get? 6).getD 0
            else 0) := by
  have hg := helper_assign_get sel cfgs 0 res h i c hc
  have harith : (0 : Nat) + i + 1 = i + 1 := by omega
  rw [harith] at hg
  rw [hg]
  simp only [Option.map_some']
  congr 1
  by_cases h2 : i + 1 = 2
  · rw [h2, if_pos rfl]
    rfl
  · rw [if_neg h2]
    by_cases h7 : i + 1 = 7
    · rw [h7, if_pos rfl]
      rfl
    · rw [if_neg h7]
      by_cases h11 : i + 1 = 11
      · rw [h11, if_pos rfl]
        rfl
      · rw [if_neg h11]
        by_cases h12 : i + 1 = 12
        · rw [h12, if_pos rfl]
          rfl
        · rw [if_neg h12]
          have hmem : ¬ (i + 1 ∈ iw_layer) := by
            simp only [iw_layer, List.mem_cons, List.not_mem_nil, or_false]
            push_neg
            refine ⟨by omega, h2, h7, h11, h12⟩
          rw [assignedIwVal, if_neg hmem]

/-- Claim C2, witness: on thirteen configs under selector `[0,1,2,3,4,5,6]`,
the block at 1-indexed position 2 receives selector entry 3. -/
theorem C2_selector_value_positions_witness :
    (c2res.get? 1).map InvertedResidualConfig.iw = some 3 :=
  C2_selector_value_positions [0, 1, 2, 3, 4, 5, 6] thirteenCfgs c2res
    (by with_unfolding_all rfl) 1 pos1Cfg (by with_unfolding_all rfl)

/-- Claim C9, counterexample: the claim says network assembly leaves every
config unchanged.  A config built with whitening mode 4 sits at position 1,
which the assembly loop is not allowed to whiten, so the loop mutates its
`iw` field to 0 (line 341). -/
theorem C9_assembly_overwrites_iw :
    iw4Cfg.iw = 4 ∧
    assignIwsFrom [0, 0, 0, 0, 0, 0, 0] 0 [iw4Cfg] = .ok [{ iw4Cfg with iw := 0 }] ∧
    ({ iw4Cfg with iw := 0 } : InvertedResidualConfig).iw ≠ iw4Cfg.iw :=
  ⟨rfl, by with_unfolding_all rfl, by decide⟩

/-- Claim C9, amended: the channel counts of an `InvertedResidualConfig` are
derived through `adjust_channels` once, at construction; and the assembly
loop preserves every field of every config except `iw`, which it overwrites
with the position-determined selector value (0 at non-eligible positions). -/
theorem C9_config_frame :
    (∀ (ic k e o : Nat) (se : Bool) (act : String) (s : Int) (d : Nat) (wm : ℚ) (m : Nat),
        (mkInvertedResidualConfig ic k e o se act s d wm m).input_channels
            = (adjust_channels ic wm).toNat ∧
        (mkInvertedResidualConfig ic k e o se act s d wm m).expanded_channels
            = (adjust_channels e wm).toNat ∧
        (mkInvertedResidualConfig ic k e o se act s d wm m).out_channels
            = (adjust_channels o wm).toNat) ∧
    (∀ (sel : List Nat) (cfgs res : List InvertedResidualConfig),
        assignIwsFrom sel 0 cfgs = .ok res →
        ∀ (i : Nat) (c : InvertedResidualConfig), cfgs.get? i = some c →
          res.get? i = some { c with iw := assignedIwVal sel (i + 1) }) := by
  constructor
  · intro ic k e o se act s d wm m
    exact ⟨rfl, rfl, rfl⟩
  · intro sel cfgs res h i c hc
    have hg := helper_assign_get sel cfgs 0 res h i c hc
    have harith : (0 : Nat) + i + 1 = i + 1 := by omega
    rw [harith] at hg
    exact hg

/-- Claim C9, witness: the constructor-derivation equations at a concrete
config, and the frame property of the assignment loop on `[iw4Cfg]`. -/
theorem C9_config_frame_witness :
    ((mkInvertedResidualConfig 16 3 16 16 true "RE" 2 1 1 4).input_channels
        = (adjust_channels 16 1).toNat ∧
     (mkInvertedResidualConfig 16 3 16 16 true "RE" 2 1 1 4).expanded_channels
        = (adjust_channels 16 1).toNat ∧
     (mkInvertedResidualConfig 16 3 16 16 true "RE" 2 1 1 4).out_channels
        = (adjust_channels 16 1).toNat) ∧
    c9res.get? 0 = some { iw4Cfg with iw := assignedIwVal [0, 0, 0, 0, 0, 0, 0] 1 } :=
  ⟨C9_config_frame.1 16 3 16 16 true "RE" 2 1 1 4,
   C9_config_frame.2 [0, 0, 0, 0, 0, 0, 0] [iw4Cfg] c9res
     (by with_unfolding_all rfl) 0 iw4Cfg rfl⟩

/-- Claim C5, counterexample: two residual-eligible blocks (stride 1, equal
in/out channels) whose forward does not preserve the input shape.  With the
repo's dilated config (dilation 2), the depthwise padding `(kernel-1)//2`
ignores the dilation, the conv shrinks 32x32 to 28x28, and the residual add
`x + conv_x` fails to broadcast.  With a config that has neither expansion
nor squeeze-excitation, the hard-coded `self.conv[2]` indexing raises
`IndexError` before any add. -/
theorem C5_shape_counterexample :
    ((mkInvertedResidual dilatedCfg).toOption.map
        (fun b => irForward b (.pair ⟨[1, 96, 32, 32]⟩ []))) =
      some (.error "RuntimeError: shapes are not broadcastable") ∧
    ((mkInvertedResidual plainCfg).toOption.map
        (fun b => irForward b (.pair ⟨[1, 16, 4, 4]⟩ []))) =
      some (.error "IndexError: conv index out of range") :=
  ⟨by with_unfolding_all rfl, by with_unfolding_all rfl⟩

/-- Claim C5, amended: a block applies the residual add exactly when
stride == 1 and input_channels == out_channels (otherwise the conv result is
passed through without the add); and for such a residual-eligible block the
output tensor shape equals the input tensor shape, provided additionally that
dilation is 1, the kernel is odd, and the block has an expansion or an SE
stage (for dilation > 1 the padding shrinks the spatial extents and the add
fails; without both expansion and SE the hard-coded `conv[2]` indexing
fails). -/
theorem C5_residual_connection :
    (∀ (cnf : InvertedResidualConfig) (b : InvertedResidual),
        mkInvertedResidual cnf = .ok b →
        (b.use_res_connect = true ↔
          (cnf.stride = 1 ∧ cnf.input_channels = cnf.out_channels))) ∧
    (∀ (cnf : InvertedResidualConfig) (b : InvertedResidual) (n h w : Nat) (acc : WArr),
        mkInvertedResidual cnf = .ok b →
        cnf.stride = 1 → cnf.input_channels = cnf.out_channels →
        cnf.dilation = 1 → cnf.kernel % 2 = 1 →
        (cnf.expanded_channels ≠ cnf.input_channels ∨ cnf.use_se = true) →
        1 ≤ h → 1 ≤ w →
        ∃ acc2, irForward b (.pair ⟨[n, cnf.input_channels, h, w]⟩ acc) =
          .ok (.pair ⟨[n, cnf.input_channels, h, w]⟩ acc2)) := by
  constructor
  · intro cnf b hb
    unfold mkInvertedResidual at hb
    split at hb
    · injection hb with hb2
      subst hb2
      simp [Bool.and_eq_true, beq_iff_eq]
    · exact Except.noConfusion hb
  · intro cnf b n h w acc hb hs hio hd hk hse hh hw
    unfold mkInvertedResidual at hb
    rw [if_pos (by rw [hs]; exact ⟨by norm_num, by norm_num⟩)] at hb
    injection hb with hb2
    subst hb2
    rw [hd, hs]
    by_cases hexp : cnf.expanded_channels = cnf.input_channels
    · have hsec : cnf.use_se = true := Or.resolve_left hse (not_not_intro hexp)
      have e2 := helper_cna_pres cnf.input_channels cnf.input_channels cnf.input_channels
        cnf.kernel true cnf.iw n h w hk (Nat.mod_self _) (Nat.mod_self _) hh hw
      have e4 := helper_cna_pres cnf.input_channels cnf.input_channels 1 1 false cnf.iw
        n h w rfl (Nat.mod_one _) (Nat.mod_one _) hh hw
      simp [irForward, irAfterDispatch, irConvAt, irSubForward, hexp, hsec, ← hio,
        e2, e4, helper_se_pres, helper_tensorAdd_self, helper_whitenStep_ir]
    · by_cases hsec : cnf.use_se = true
      · have e1 := helper_cna_pres cnf.input_channels cnf.expanded_channels 1 1 true cnf.iw
          n h w rfl (Nat.mod_one _) (Nat.mod_one _) hh hw
        have e2 := helper_cna_pres cnf.expanded_channels cnf.expanded_channels
          cnf.expanded_channels cnf.kernel true cnf.iw n h w hk (Nat.mod_self _)
          (Nat.mod_self _) hh hw
        have e4 := helper_cna_pres cnf.expanded_channels cnf.input_channels 1 1 false cnf.iw
          n h w rfl (Nat.mod_one _) (Nat.mod_one _) hh hw
        simp [irForward, irAfterDispatch, irConvAt, irSubForward, hexp, hsec, ← hio,
          e1, e2, e4, helper_se_pres, helper_tensorAdd_self, helper_whitenStep_ir]
      · have e1 := helper_cna_pres cnf.input_channels cnf.expanded_channels 1 1 true cnf.iw
          n h w rfl (Nat.mod_one _) (Nat.mod_one _) hh hw
        have e2 := helper_cna_pres cnf.expanded_channels cnf.expanded_channels
          cnf.expanded_channels cnf.kernel true cnf.iw n h w hk (Nat.mod_self _)
          (Nat.mod_self _) hh hw
        have e4 := helper_cna_pres cnf.expanded_channels cnf.input_channels 1 1 false cnf.iw
          n h w rfl (Nat.mod_one _) (Nat.mod_one _) hh hw
        simp [irForward, irAfterDispatch, irConvAt, irSubForward, hexp, hsec, ← hio,
          e1, e2, e4, helper_tensorAdd_self, helper_whitenStep_ir]

/-- Claim C5, witness: the block built from the residual-eligible `resCfg`
(stride 1, 40 → 40, dilation 1, kernel 5, with expansion and SE) has the
residual connection and preserves a concrete input shape. -/
theorem C5_residual_connection_witness :
    (resBlock.use_res_connect = true ↔
      (resCfg.stride = 1 ∧ resCfg.input_channels = resCfg.out_channels)) ∧
    ∃ acc2, irForward resBlock (.pair ⟨[1, resCfg.input_channels, 7, 9]⟩ [3]) =
      .ok (.pair ⟨[1, resCfg.input_channels, 7, 9]⟩ acc2) :=
  ⟨C5_residual_connection.1 resCfg resBlock (by with_unfolding_all rfl),
   C5_residual_connection.2 resCfg resBlock 1 7 9 [3] (by with_unfolding_all rfl)
     (by with_unfolding_all rfl) (by with_unfolding_all rfl) (by with_unfolding_all rfl)
     (by with_unfolding_all rfl) (Or.inl (by with_unfolding_all decide))
     (by norm_num) (by norm_num)⟩
